import Mathlib

/-!
Verification of the STM32F070RB register-level firmware (Src/adc.c, Src/pwm.c,
Src/system.c, Src/uart.c, Src/main.c) against its natural-language specification.

The embedding is shallow: machine integers are `Nat` with explicit `% 2^32`
(resp. `% 256`) wherever the C code computes in `uint32_t` (resp. `uint8_t`);
memory-mapped registers that a function writes are passed and returned
explicitly; the byte stream and the millisecond counter observed by the
command-interpreter loop are supplied as an explicit trace of observations.
-/

/-- Modulus of C `uint32_t` arithmetic (2^32). -/
def UINT32_MOD : Nat := 4294967296

/-- C unsigned 32-bit subtraction `a - b`, as used in `(msTicks - start_ticks)`
in Src/system.c line 52 and `(msTicks - start_time)` in Src/main.c line 86:
the difference modulo 2^32. -/
def sub32 (a b : Nat) : Nat :=
  (a % UINT32_MOD + (UINT32_MOD - b % UINT32_MOD)) % UINT32_MOD

/-- VDD_APPLI from Inc/nucleo_conf.h line 84: application voltage in mV,
a `uint32_t` constant. -/
def VDD_APPLI : Nat := 3300

/-- VDD_CALIB from Inc/nucleo_conf.h line 83: factory calibration voltage in mV,
a `uint32_t` constant. -/
def VDD_CALIB : Nat := 3300

/-- AVG_SLOPE from Inc/nucleo_conf.h line 85: average sensor slope in μV/°C,
a `uint32_t` constant. -/
def AVG_SLOPE : Nat := 5336

/-- get_temperature from Src/adc.c lines 73-77.  `raw` is the `uint32_t` value
read from ADC_DR; `cal30` is the `uint16_t` factory value at TEMP30_CAL_ADDR.
The C expression is
`(((int32_t)adc_value * VDD_APPLI / VDD_CALIB - (int32_t)*TEMP30_CAL_ADDR) * 1000 / AVG_SLOPE) + 30`.
Because VDD_APPLI, VDD_CALIB and AVG_SLOPE are `uint32_t`, the usual arithmetic
conversions promote every intermediate back to `uint32_t`: the multiplication,
both divisions, the subtraction and the additions are all unsigned modulo 2^32,
despite the two explicit `(int32_t)` casts.  The final conversion of the
`uint32_t` result to the `int32_t` return value wraps (GCC/ARM behaviour). -/
def get_temperature (raw cal30 : Nat) : Int :=
  let t1 := raw % UINT32_MOD * VDD_APPLI % UINT32_MOD
  let t2 := t1 / VDD_CALIB
  let t3 := (t2 + (UINT32_MOD - cal30 % UINT32_MOD)) % UINT32_MOD
  let t4 := t3 * 1000 % UINT32_MOD
  let t5 := t4 / AVG_SLOPE
  let t6 := (t5 + 30) % UINT32_MOD
  if t6 < 2147483648 then (t6 : Int) else (t6 : Int) - UINT32_MOD

/-- Modelled from the spec wording of §4.3 (for comparison with
`get_temperature`): the conversion formula read over mathematical integers in
the same operation order, with every division truncating toward zero
(`Int.tdiv`), i.e. the semantics the formula would have if all intermediates
were `int32_t` and no overflow occurred. -/
def get_temperature_signed_formula (raw cal30 : Nat) : Int :=
  Int.tdiv ((Int.tdiv ((raw : Int) * (VDD_APPLI : Int)) (VDD_CALIB : Int)
    - (cal30 : Int)) * 1000) (AVG_SLOPE : Int) + 30

/-- set_led_brightness from Src/pwm.c lines 62-70.  `brightness` is the
`uint8_t` argument, `ccr1` the value of the TIM2_CCR1 compare register before
the call; the result is the value of TIM2_CCR1 after the call (the function's
only side effect). -/
def set_led_brightness (brightness ccr1 : Nat) : Nat :=
  if brightness > 99 then 99 else brightness

/-- SysTick_Handler from Src/system.c lines 35-38: `++msTicks` on the
`volatile uint32_t` counter, i.e. increment modulo 2^32.  It is the only
function in the repository that writes `msTicks`; every other occurrence
(Src/system.c lines 49 and 52, Src/main.c lines 85-86) only reads it, which
is why the embedding threads the counter value into those functions as a
read-only argument. -/
def SysTick_Handler (msTicks : Nat) : Nat := (msTicks + 1) % UINT32_MOD

/-- Initial value of `msTicks` from Src/system.c line 11. -/
def msTicks_init : Nat := 0

/-- Loop-continuation test of delay_ms from Src/system.c lines 47-56:
the busy-wait `while ((msTicks - start_ticks) < ms);` keeps spinning while
this is `true` and delay_ms returns at the first read `cur` of `msTicks`
for which it is `false`. -/
def delay_guard (start_ticks ms cur : Nat) : Bool :=
  decide (sub32 cur start_ticks < ms)

/-- Byte test `c >= '0' && c <= '9'` from Src/main.c line 96 (`char` is
unsigned on the ARM target, and for bytes the comparison agrees with the
code-point comparison used here). -/
def isDigitChar (c : Char) : Bool := 48 ≤ c.toNat && c.toNat ≤ 57

/-- One observation made at the head of the digit-collection loop of
Src/main.c lines 86-106: the current value of `msTicks` and the byte the
UART offers (`none` when `uart_data_available()` is 0, `some c` when RXNE is
set and `uart_receive_char()` would return `c`). -/
structure LoopObs where
  tick : Nat
  byte : Option Char

/-- Digit-collection loop of Src/main.c lines 84-106.
`start_time` is the captured `msTicks` (line 85), `digits` the characters
stored in `brightness_str` so far (`idx = digits.length`), `echoed` the bytes
written to USART_TDR by line 92 so far.  Each trace element is one iteration's
observation; the guard is `idx < 2 && (msTicks - start_time) < 5000`; a
consumed byte is echoed first (lines 92-93) and then tested (line 96): a digit
is stored and the loop continues, a non-digit breaks out (line 103).  The
result is `some (final digits, final echo log)` when the loop has exited, and
`none` when the given trace ends with the loop still running. -/
def collect_digits (start_time : Nat) :
    List LoopObs → List Char → List Char → Option (List Char × List Char)
  | [], _, _ => none
  | ⟨tk, none⟩ :: rest, digits, echoed =>
    if digits.length < 2 ∧ sub32 tk start_time < 5000 then
      collect_digits start_time rest digits echoed
    else
      some (digits, echoed)
  | ⟨tk, some c⟩ :: rest, digits, echoed =>
    if digits.length < 2 ∧ sub32 tk start_time < 5000 then
      if isDigitChar c then
        collect_digits start_time rest (digits ++ [c]) (echoed ++ [c])
      else
        some (digits, echoed ++ [c])
    else
      some (digits, echoed)

/-- Digit-to-value conversion of Src/main.c lines 111-116:
`brightness = brightness * 10 + (brightness_str[i] - '0')` folded left over
the stored digits, on the `uint8_t` variable `brightness` (hence `% 256`). -/
def l_command_brightness_value (digits : List Char) : Nat :=
  digits.foldl (fun b c => (b * 10 + (c.toNat - 48)) % 256) 0

/-- Effect of Src/main.c lines 108-128 on the TIM2_CCR1 register:
`set_led_brightness` is called exactly when at least one digit was collected
(line 109); otherwise the register is untouched. -/
def l_command_ccr1 (digits : List Char) (ccr1 : Nat) : Nat :=
  if digits.length > 0 then
    set_led_brightness (l_command_brightness_value digits) ccr1
  else
    ccr1

/-- Text emitted by Src/main.c lines 108-128 after the collection loop:
the sprintf line `"\r\nLED brightness set to %d%%\r\n"` (line 122) when at
least one digit was collected, else the no-digits line (line 127). -/
def l_command_response (digits : List Char) : String :=
  if digits.length > 0 then
    "\r\nLED brightness set to " ++ toString (l_command_brightness_value digits) ++ "%\r\n"
  else
    "No digits received after L command\r\n"

/-- Initial value of `temp_reading_active` from Src/main.c line 46. -/
def temp_reading_active_init : Nat := 0

/-- T-command branch of Src/main.c lines 62-74 on the `uint8_t` flag
`temp_reading_active`: `temp_reading_active = !temp_reading_active` (C logical
negation: 0 becomes 1, anything non-zero becomes 0), then the message chosen
by `if (temp_reading_active)`.  Returns the new flag value and the emitted
line. -/
def t_command (active : Nat) : Nat × String :=
  let a := if active ≠ 0 then 0 else 1
  (a, if a ≠ 0 then "Temperature reading ON\r\n" else "Temperature reading OFF\r\n")

/-! ## Helper lemmas -/

/-- Wraparound-safe subtraction recovers the elapsed tick count: for any start
value `t0` and any number `n` of elapsed ticks, the `uint32_t` difference
between the wrapped counter `(t0 + n) % 2^32` and `t0` is `n % 2^32`. -/
theorem sub32_elapsed (t0 n : Nat) :
    sub32 ((t0 + n) % UINT32_MOD) t0 = n % UINT32_MOD := by
  simp only [sub32, UINT32_MOD]
  omega

/-- Bounds extracted from a successful digit test. -/
theorem isDigitChar_bounds (c : Char) (h : isDigitChar c = true) :
    48 ≤ c.toNat ∧ c.toNat ≤ 57 := by
  simpa [isDigitChar, Bool.and_eq_true, decide_eq_true_eq] using h

/-- For at most two stored digit characters, the `uint8_t` fold of
Src/main.c lines 113-116 computes the plain base-10 value of the digits and
that value is at most 99. -/
theorem l_command_value_spec (digits : List Char) (hlen : digits.length ≤ 2)
    (hdig : ∀ c ∈ digits, isDigitChar c = true) :
    l_command_brightness_value digits
      = (digits.map (fun c => c.toNat - 48)).foldl (fun n d => 10 * n + d) 0
    ∧ l_command_brightness_value digits ≤ 99 := by
  match digits with
  | [] => simp [l_command_brightness_value]
  | [c] =>
    have h := isDigitChar_bounds c (hdig c (by simp))
    simp only [l_command_brightness_value, List.foldl, List.map]
    omega
  | [c1, c2] =>
    have h1 := isDigitChar_bounds c1 (hdig c1 (by simp))
    have h2 := isDigitChar_bounds c2 (hdig c2 (by simp))
    simp only [l_command_brightness_value, List.foldl, List.map]
    have e1 : (0 * 10 + (c1.toNat - 48)) % 256 = c1.toNat - 48 := by omega
    rw [e1]
    have e2 : ((c1.toNat - 48) * 10 + (c2.toNat - 48)) % 256
        = (c1.toNat - 48) * 10 + (c2.toNat - 48) :=
      Nat.mod_eq_of_lt (by omega)
    rw [e2]
    constructor
    · omega
    · omega
  | _ :: _ :: _ :: _ => simp at hlen

/-- Loop invariant of the digit-collection loop: starting from a stored-digit
list that contains only digit characters and has length at most 2, any exit
state again contains only digit characters and has length at most 2. -/
theorem collect_digits_inv (start : Nat) (trace : List LoopObs) :
    ∀ (digits echoed : List Char) (out : List Char × List Char),
      collect_digits start trace digits echoed = some out →
      (∀ c ∈ digits, isDigitChar c = true) → digits.length ≤ 2 →
      (∀ c ∈ out.1, isDigitChar c = true) ∧ out.1.length ≤ 2 := by
  induction trace with
  | nil =>
    intro digits echoed out h
    simp [collect_digits] at h
  | cons o rest ih =>
    intro digits echoed out h hdig hlen
    obtain ⟨tk, ob⟩ := o
    cases ob with
    | none =>
      simp only [collect_digits] at h
      by_cases hg : digits.length < 2 ∧ sub32 tk start < 5000
      · rw [if_pos hg] at h
        exact ih digits echoed out h hdig hlen
      · rw [if_neg hg] at h
        obtain rfl : (digits, echoed) = out := Option.some.inj h
        exact ⟨hdig, hlen⟩
    | some c =>
      simp only [collect_digits] at h
      by_cases hg : digits.length < 2 ∧ sub32 tk start < 5000
      · rw [if_pos hg] at h
        by_cases hd : isDigitChar c = true
        · rw [if_pos hd] at h
          refine ih (digits ++ [c]) (echoed ++ [c]) out h ?_ ?_
          · intro x hx
            rcases List.mem_append.mp hx with hx | hx
            · exact hdig x hx
            · rw [List.mem_singleton.mp hx]; exact hd
          · have hlt := hg.1
            simp only [List.length_append, List.length_singleton]
            omega
        · rw [if_neg hd] at h
          obtain rfl : (digits, echoed ++ [c]) = out := Option.some.inj h
          exact ⟨hdig, hlen⟩
      · rw [if_neg hg] at h
        obtain rfl : (digits, echoed) = out := Option.some.inj h
        exact ⟨hdig, hlen⟩

/-! ## Claim theorems -/

/-- Claim C1 (code_bug evidence).  The conversion in `get_temperature` is
performed in unsigned 32-bit arithmetic (the `uint32_t` calibration constants
re-promote the `(int32_t)` casts), so the claimed signed toward-zero formula
disagrees with the code as soon as the bracketed term is negative: at
raw = 0, cal30 = 1 the code yields 804933 while the claimed formula yields 30.
For raw = 0, cal30 = 0 the code does yield 30 as claimed, and when the
bracketed term is non-negative (e.g. raw = 1000, cal30 = 900) code and
formula agree. -/
theorem get_temperature_unsigned_divergence :
    get_temperature 0 0 = 30
    ∧ get_temperature 0 1 = 804933
    ∧ get_temperature_signed_formula 0 1 = 30
    ∧ get_temperature 1000 900 = get_temperature_signed_formula 1000 900 := by
  decide

/-- Claim C2: for an 8-bit argument `v`, `set_led_brightness v` leaves
TIM2_CCR1 equal to `v` when `v ≤ 99` and equal to 99 when `v > 99`, and a
second call with the same argument leaves the register unchanged. -/
theorem set_led_brightness_clamp (v ccr1 : Nat) (hv : v < 256) :
    (v ≤ 99 → set_led_brightness v ccr1 = v)
    ∧ (99 < v → set_led_brightness v ccr1 = 99)
    ∧ set_led_brightness v (set_led_brightness v ccr1) = set_led_brightness v ccr1 := by
  refine ⟨fun h => ?_, fun h => ?_, ?_⟩ <;>
    simp only [set_led_brightness] <;>
    split <;> omega

/-- Witness for C2 at the concrete clamped input v = 255, ccr1 = 7. -/
theorem set_led_brightness_clamp_witness :
    (255 : Nat) < 256
    ∧ (((255 : Nat) ≤ 99 → set_led_brightness 255 7 = 255)
      ∧ (99 < 255 → set_led_brightness 255 7 = 99)
      ∧ set_led_brightness 255 (set_led_brightness 255 7) = set_led_brightness 255 7) :=
  ⟨by decide, set_led_brightness_clamp 255 7 (by decide)⟩

/-- Claim C3: `delay_ms ms` entered at counter value `t0` exits at the first
read of the counter at which the unsigned difference to `t0` is at least `ms`.
With the counter after `n` elapsed ticks being `(t0 + n) % 2^32`, the exit
test fails exactly while fewer than `ms` ticks (mod 2^32) have elapsed, at the
moment of exit `msTicks - t0 ≥ ms` holds in unsigned arithmetic, and the exit
is reached once `ms` ticks have occurred — all irrespective of the counter
wrapping past 2^32 during the wait. -/
theorem delay_ms_wraparound (t0 ms n : Nat) (hms : ms < UINT32_MOD) :
    (delay_guard t0 ms ((t0 + n) % UINT32_MOD) = false ↔ ms ≤ n % UINT32_MOD)
    ∧ (delay_guard t0 ms ((t0 + n) % UINT32_MOD) = false →
        ms ≤ sub32 ((t0 + n) % UINT32_MOD) t0)
    ∧ delay_guard t0 ms ((t0 + ms) % UINT32_MOD) = false := by
  have key := sub32_elapsed t0 n
  have key2 := sub32_elapsed t0 ms
  refine ⟨?_, ?_, ?_⟩
  · simp [delay_guard, key, Nat.not_lt]
  · intro h
    rw [key]
    simpa [delay_guard, key, Nat.not_lt] using h
  · simp [delay_guard, key2, Nat.not_lt, Nat.mod_eq_of_lt hms]

/-- Witness for C3 across a wraparound boundary: start value 4294967290,
wait of 100 ms; after 100 ticks the counter has wrapped to 94 and the wait
exits. -/
theorem delay_ms_wraparound_witness : delay_guard 4294967290 100 94 = false := by
  have h := (delay_ms_wraparound 4294967290 100 100 (by decide)).2.2
  exact (by decide : (4294967290 + 100) % UINT32_MOD = 94) ▸ h

/-- Claim C4: the digit-collection loop exits at a given iteration exactly
when 2 digits are already stored, or 5000 ms have elapsed (wraparound-safe
subtraction from the captured start time), or the consumed byte is a
non-digit; in every other case it continues.  For input "L99" (two digits, no
terminator) the loop exits with digits "99", TIM2_CCR1 is set to 99 and the
confirmation line "LED brightness set to 99%" (preceded by CRLF, terminated
by CRLF) is emitted. -/
theorem l_command_collect_exit :
    (∀ (start tk : Nat) (ob : Option Char) (rest : List LoopObs)
        (digits echoed : List Char),
      (¬(digits.length < 2 ∧ sub32 tk start < 5000) →
        collect_digits start (⟨tk, ob⟩ :: rest) digits echoed = some (digits, echoed))
      ∧ (digits.length < 2 → sub32 tk start < 5000 → ob = none →
        collect_digits start (⟨tk, ob⟩ :: rest) digits echoed
          = collect_digits start rest digits echoed)
      ∧ (∀ c : Char, digits.length < 2 → sub32 tk start < 5000 →
          ob = some c → isDigitChar c = true →
        collect_digits start (⟨tk, ob⟩ :: rest) digits echoed
          = collect_digits start rest (digits ++ [c]) (echoed ++ [c]))
      ∧ (∀ c : Char, digits.length < 2 → sub32 tk start < 5000 →
          ob = some c → isDigitChar c = false →
        collect_digits start (⟨tk, ob⟩ :: rest) digits echoed
          = some (digits, echoed ++ [c])))
    ∧ (collect_digits 0 [⟨0, some '9'⟩, ⟨6, some '9'⟩, ⟨12, none⟩] [] []
        = some (['9', '9'], ['9', '9'])
      ∧ l_command_ccr1 ['9', '9'] 0 = 99
      ∧ l_command_response ['9', '9'] = "\r\n" ++ "LED brightness set to 99%\r\n") := by
  constructor
  · intro start tk ob rest digits echoed
    refine ⟨fun h => ?_, fun h1 h2 hb => ?_, fun c h1 h2 hb hd => ?_,
      fun c h1 h2 hb hd => ?_⟩
    · cases ob <;> simp only [collect_digits] <;> rw [if_neg h]
    · subst hb
      simp only [collect_digits]
      rw [if_pos ⟨h1, h2⟩]
    · subst hb
      simp only [collect_digits]
      rw [if_pos ⟨h1, h2⟩, if_pos hd]
    · subst hb
      simp only [collect_digits]
      rw [if_pos ⟨h1, h2⟩, if_neg (by simp [hd])]
  · exact ⟨by decide, by rfl, by rfl⟩

/-- Witness for C4: a loop head observed at 6000 elapsed ms with no byte
available exits immediately with no digits (the 5000 ms timeout arm). -/
theorem l_command_collect_exit_witness :
    collect_digits 0 [⟨6000, none⟩] [] [] = some ([], []) :=
  (l_command_collect_exit.1 0 6000 none [] [] []).1 (by decide)

/-- Claim C5: each SysTick_Handler invocation increments `msTicks` by exactly
one modulo 2^32, and after `n` invocations from value `t0` the counter reads
`(t0 + n) % 2^32`, including across a wraparound boundary. -/
theorem msTicks_tick_iterate :
    (∀ t : Nat, SysTick_Handler t = (t + 1) % UINT32_MOD)
    ∧ (∀ (n t0 : Nat), t0 < UINT32_MOD →
        SysTick_Handler^[n] t0 = (t0 + n) % UINT32_MOD) := by
  refine ⟨fun t => rfl, ?_⟩
  intro n
  induction n with
  | zero =>
    intro t0 h
    simp [Nat.mod_eq_of_lt h]
  | succ k ih =>
    intro t0 h
    rw [Function.iterate_succ_apply,
      ih (SysTick_Handler t0) (by simp only [SysTick_Handler, UINT32_MOD]; omega)]
    simp only [SysTick_Handler, UINT32_MOD]
    omega

/-- Witness for C5 across the wraparound boundary: two ticks from
4294967295 read 1. -/
theorem msTicks_tick_iterate_witness : SysTick_Handler^[2] 4294967295 = 1 := by
  rw [msTicks_tick_iterate.2 2 4294967295 (by decide)]
  decide

/-- Claim C6: when the collection loop exits with zero digits — immediate
non-digit such as input "LX", or timeout with nothing received — the
interpreter emits the no-digits line, and TIM2_CCR1 keeps whatever value it
had (set_led_brightness is not reached). -/
theorem l_command_no_digits_unchanged :
    (∀ ccr1 : Nat, l_command_ccr1 [] ccr1 = ccr1)
    ∧ l_command_response [] = "No digits received after L command\r\n"
    ∧ collect_digits 0 [⟨0, some 'X'⟩] [] [] = some ([], ['X'])
    ∧ collect_digits 0 [⟨5000, none⟩] [] [] = some ([], []) := by
  refine ⟨fun ccr1 => rfl, rfl, by decide, by decide⟩

/-- Claim C7: when at least one digit was collected, the accumulated digit
characters are parsed left-to-right in base 10, the parsed value (at most 99
for at most two digits) is written to TIM2_CCR1 through set_led_brightness,
and the confirmation line with that percentage is emitted; concretely, input
"L5\n" collects the digit 5, sets TIM2_CCR1 to 5 and emits
"\r\nLED brightness set to 5%\r\n". -/
theorem l_command_parse_and_confirm :
    (∀ digits : List Char, digits ≠ [] → digits.length ≤ 2 →
      (∀ c ∈ digits, isDigitChar c = true) →
      l_command_brightness_value digits
        = (digits.map (fun c => c.toNat - 48)).foldl (fun n d => 10 * n + d) 0
      ∧ l_command_brightness_value digits ≤ 99
      ∧ (∀ ccr1 : Nat, l_command_ccr1 digits ccr1 = l_command_brightness_value digits)
      ∧ l_command_response digits
          = "\r\nLED brightness set to "
            ++ toString (l_command_brightness_value digits) ++ "%\r\n")
    ∧ (collect_digits 0 [⟨0, some '5'⟩, ⟨6, some '\n'⟩] [] [] = some (['5'], ['5', '\n'])
      ∧ l_command_ccr1 ['5'] 0 = 5
      ∧ l_command_response ['5'] = "\r\nLED brightness set to 5%\r\n") := by
  constructor
  · intro digits hne hlen hdig
    obtain ⟨hv, hle⟩ := l_command_value_spec digits hlen hdig
    have hpos : digits.length > 0 := List.length_pos.mpr hne
    refine ⟨hv, hle, fun ccr1 => ?_, ?_⟩
    · rw [l_command_ccr1, if_pos hpos, set_led_brightness, if_neg (by omega)]
    · rw [l_command_response, if_pos hpos]
  · exact ⟨by decide, by rfl, by rfl⟩

/-- Witness for C7 at the concrete single digit '5'. -/
theorem l_command_parse_and_confirm_witness :
    l_command_brightness_value ['5'] ≤ 99
    ∧ l_command_ccr1 ['5'] 3 = l_command_brightness_value ['5'] := by
  have h := l_command_parse_and_confirm.1 ['5'] (by decide) (by decide) (by decide)
  exact ⟨h.2.1, h.2.2.1 3⟩

/-- Claim C8: the reporting flag starts at 0 (false); the T-command inverts
it, so two consecutive T-commands restore the prior state on the reachable
values 0 and 1; the emitted line is the ON line exactly when the new flag
value is non-zero and the OFF line exactly when it is zero; the first T after
startup yields the ON line and the second the OFF line. -/
theorem t_command_toggle :
    temp_reading_active_init = 0
    ∧ (∀ a : Nat, a ≤ 1 → (t_command (t_command a).1).1 = a)
    ∧ (∀ a : Nat, ((t_command a).1 ≠ 0 → (t_command a).2 = "Temperature reading ON\r\n")
        ∧ ((t_command a).1 = 0 → (t_command a).2 = "Temperature reading OFF\r\n"))
    ∧ (t_command temp_reading_active_init).2 = "Temperature reading ON\r\n"
    ∧ (t_command (t_command temp_reading_active_init).1).2
        = "Temperature reading OFF\r\n" := by
  refine ⟨rfl, ?_, ?_, rfl, rfl⟩
  · intro a ha
    match a with
    | 0 => rfl
    | 1 => rfl
  · intro a
    by_cases h : a = 0
    · subst h
      exact ⟨fun _ => rfl, fun h1 => absurd h1 (by decide)⟩
    · constructor
      · intro h1
        exact absurd (by simp [t_command, h]) h1
      · intro _
        simp [t_command, h]

/-- Witness for C8: from flag value 1, two T-commands restore 1. -/
theorem t_command_toggle_witness : (t_command (t_command 1).1).1 = 1 :=
  t_command_toggle.2.1 1 (by decide)

/-- Claim C9: inside the collection loop every consumed byte is written to
USART_TDR (echoed) before the digit test, so a consumed byte `c` appears at
the end of the echo log in both outcomes — continuation on a digit and
termination on a non-digit; concretely a lone non-digit 'A' is echoed. -/
theorem l_command_echo_consumed :
    (∀ (start tk : Nat) (c : Char) (rest : List LoopObs) (digits echoed : List Char),
      digits.length < 2 → sub32 tk start < 5000 →
      collect_digits start (⟨tk, some c⟩ :: rest) digits echoed
        = (if isDigitChar c then
            collect_digits start rest (digits ++ [c]) (echoed ++ [c])
          else
            some (digits, echoed ++ [c])))
    ∧ collect_digits 0 [⟨0, some 'A'⟩] [] [] = some ([], ['A']) := by
  constructor
  · intro start tk c rest digits echoed h1 h2
    simp only [collect_digits]
    rw [if_pos ⟨h1, h2⟩]
  · decide

/-- Witness for C9: the non-digit terminator 'Q' ends the loop echoed. -/
theorem l_command_echo_consumed_witness :
    collect_digits 0 [⟨3, some 'Q'⟩] [] [] = some ([], ['Q']) := by
  rw [l_command_echo_consumed.1 0 3 'Q' [] [] [] (by decide) (by decide)]
  decide

/-- Claim C10: whatever the input trace, a completed collection loop yields a
digit string whose parsed value is at most 99, so the clamping branch of
set_led_brightness is never taken when it is called from the interpreter:
the register receives the parsed value unchanged. -/
theorem l_command_clamp_unreachable :
    ∀ (start : Nat) (trace : List LoopObs) (digits echoed : List Char),
      collect_digits start trace [] [] = some (digits, echoed) →
      l_command_brightness_value digits ≤ 99
      ∧ ∀ ccr1 : Nat,
          set_led_brightness (l_command_brightness_value digits) ccr1
            = l_command_brightness_value digits := by
  intro start trace digits echoed h
  have hinv := collect_digits_inv start trace [] [] (digits, echoed) h
    (by simp) (by simp)
  have hle := (l_command_value_spec digits hinv.2 hinv.1).2
  exact ⟨hle, fun ccr1 => by rw [set_led_brightness, if_neg (by omega)]⟩

/-- Witness for C10 on the concrete trace collecting the digit '7' and then
the terminator 'x'. -/
theorem l_command_clamp_unreachable_witness :
    l_command_brightness_value ['7'] ≤ 99
    ∧ set_led_brightness (l_command_brightness_value ['7']) 0
        = l_command_brightness_value ['7'] := by
  have h := l_command_clamp_unreachable 0 [⟨0, some '7'⟩, ⟨1, some 'x'⟩]
    ['7'] ['7', 'x'] (by decide)
  exact ⟨h.1, h.2 0⟩
